import Mathlib

/-!
# Verification of the nanobanana API-key and usage-accounting subsystem

Shallow embedding of `backend/app/features/keys/service.py`,
`backend/app/features/keys/dependencies.py`,
`backend/app/features/keys/rate_limit.py` and
`backend/app/features/generate/service.py` (plus the table constraints of
`backend/app/models/api_key.py` and `backend/app/models/usage.py`).

Strings are modelled as `List Char`, bytes as `Nat` below 256, machine
words as `Nat` reduced `% 2^32`.  Database state is an explicit list of
rows; the SQL uniqueness constraints appear as explicit checks in the
modelled `flush`.
-/

namespace NanoBanana

/-! ## `hashlib.sha256(...).hexdigest()` (FIPS 180-4), over `Nat % 2^32` -/

/-- Modulus 2^32 for 32-bit words. -/
def m32 : Nat := 4294967296

/-- Right rotation of a 32-bit word, result reduced mod `2^32`. -/
def rotr32 (n x : Nat) : Nat := ((x >>> n) ||| (x <<< (32 - n))) % m32

/-- Bitwise complement of a 32-bit word (xor with all ones). -/
def not32 (x : Nat) : Nat := x ^^^ (m32 - 1)

/-- SHA-256 `Ch(x,y,z)`. -/
def ch32 (x y z : Nat) : Nat := (x &&& y) ^^^ (not32 x &&& z)

/-- SHA-256 `Maj(x,y,z)`. -/
def maj32 (x y z : Nat) : Nat := (x &&& y) ^^^ (x &&& z) ^^^ (y &&& z)

/-- SHA-256 `Σ₀`. -/
def bigS0 (x : Nat) : Nat := rotr32 2 x ^^^ rotr32 13 x ^^^ rotr32 22 x

/-- SHA-256 `Σ₁`. -/
def bigS1 (x : Nat) : Nat := rotr32 6 x ^^^ rotr32 11 x ^^^ rotr32 25 x

/-- SHA-256 `σ₀`. -/
def smallS0 (x : Nat) : Nat := rotr32 7 x ^^^ rotr32 18 x ^^^ (x >>> 3)

/-- SHA-256 `σ₁`. -/
def smallS1 (x : Nat) : Nat := rotr32 17 x ^^^ rotr32 19 x ^^^ (x >>> 10)

/-- The 64 SHA-256 round constants, in decimal. -/
def kTable : List Nat :=
  [1116352408, 1899447441, 3049323471, 3921009573, 961987163, 1508970993,
   2453635748, 2870763221, 3624381080, 310598401, 607225278, 1426881987,
   1925078388, 2162078206, 2614888103, 3248222580, 3835390401, 4022224774,
   264347078, 604807628, 770255983, 1249150122, 1555081692, 1996064986,
   2554220882, 2821834349, 2952996808, 3210313671, 3336571891, 3584528711,
   113926993, 338241895, 666307205, 773529912, 1294757372, 1396182291,
   1695183700, 1986661051, 2177026350, 2456956037, 2730485921, 2820302411,
   3259730800, 3345764771, 3516065817, 3600352804, 4094571909, 275423344,
   430227734, 506948616, 659060556, 883997877, 958139571, 1322822218,
   1537002063, 1747873779, 1955562222, 2024104815, 2227730452, 2361852424,
   2428436474, 2756734187, 3204031479, 3329325298]

/-- The eight-word SHA-256 working state. -/
structure Words8 where
  a : Nat
  b : Nat
  c : Nat
  d : Nat
  e : Nat
  f : Nat
  g : Nat
  h : Nat
deriving DecidableEq

/-- The SHA-256 initial hash value, in decimal. -/
def hInit : Words8 :=
  ⟨1779033703, 3144134277, 1013904242, 2773480762,
   1359893119, 2600822924, 528734635, 1541459225⟩

/-- Group a byte list into 32-bit big-endian words. -/
def toWords32 : List Nat → List Nat
  | b0 :: b1 :: b2 :: b3 :: rest =>
      (b0 * 16777216 + b1 * 65536 + b2 * 256 + b3) :: toWords32 rest
  | _ => []

/-- Extend the message schedule: `w` holds the words produced so far in
reverse order (most recent first); run `n` more extension steps. -/
def extendW : Nat → List Nat → List Nat
  | 0, w => w
  | n + 1, w =>
      extendW n
        (((smallS1 (w.getD 1 0) + w.getD 6 0 + smallS0 (w.getD 14 0) +
            w.getD 15 0) % m32) :: w)

/-- One SHA-256 compression round with round constant `kt` and schedule
word `wt`. -/
def round32 (s : Words8) (kt wt : Nat) : Words8 :=
  let t1 := (s.h + bigS1 s.e + ch32 s.e s.f s.g + kt + wt) % m32
  let t2 := (bigS0 s.a + maj32 s.a s.b s.c) % m32
  ⟨(t1 + t2) % m32, s.a, s.b, s.c, (s.d + t1) % m32, s.e, s.f, s.g⟩

/-- Run the 64 rounds over the zipped (constant, schedule) list. -/
def rounds32 : List (Nat × Nat) → Words8 → Words8
  | [], s => s
  | (kt, wt) :: rest, s => rounds32 rest (round32 s kt wt)

/-- Compress one 64-byte block into the running hash state. -/
def compressBlock (s : Words8) (block : List Nat) : Words8 :=
  let w16 := toWords32 block
  let w := (extendW 48 w16.reverse).reverse
  let t := rounds32 (kTable.zip w) s
  ⟨(s.a + t.a) % m32, (s.b + t.b) % m32, (s.c + t.c) % m32, (s.d + t.d) % m32,
   (s.e + t.e) % m32, (s.f + t.f) % m32, (s.g + t.g) % m32, (s.h + t.h) % m32⟩

/-- Big-endian rendering of `n` on `k` bytes. -/
def beBytes (k n : Nat) : List Nat :=
  (List.range k).map (fun i => (n >>> (8 * (k - 1 - i))) % 256)

/-- SHA-256 padding: the byte `0x80`, zero bytes, then the 64-bit
big-endian bit length, to a multiple of 64 bytes. -/
def padMessage (msg : List Nat) : List Nat :=
  let len := msg.length
  let zeros := (64 - (len + 9) % 64) % 64
  msg ++ 128 :: List.replicate zeros 0 ++ beBytes 8 (len * 8)

/-- Split a byte list into `n` chunks of 64 bytes. -/
def chunk64 : Nat → List Nat → List (List Nat)
  | 0, _ => []
  | n + 1, l => l.take 64 :: chunk64 n (l.drop 64)

/-- SHA-256 digest of a byte list, as 32 bytes. -/
def sha256Bytes (msg : List Nat) : List Nat :=
  let p := padMessage msg
  let s := (chunk64 (p.length / 64) p).foldl compressBlock hInit
  ((([s.a, s.b, s.c, s.d, s.e, s.f, s.g, s.h]).map (beBytes 4)).flatten)

/-- Lowercase hexadecimal digit for `n < 16` (as Python `hexdigest`). -/
def hexChar (n : Nat) : Char :=
  if n < 10 then Char.ofNat (48 + n) else Char.ofNat (87 + n)

/-- Two lowercase hex characters of a byte. -/
def byteToHex (b : Nat) : List Char := [hexChar (b / 16), hexChar (b % 16)]

/-- UTF-8 encoding of one character (Python `str.encode()`). -/
def utf8Char (c : Char) : List Nat :=
  let n := c.toNat
  if n < 128 then [n]
  else if n < 2048 then [192 ||| (n >>> 6), 128 ||| (n &&& 63)]
  else if n < 65536 then
    [224 ||| (n >>> 12), 128 ||| ((n >>> 6) &&& 63), 128 ||| (n &&& 63)]
  else
    [240 ||| (n >>> 18), 128 ||| ((n >>> 12) &&& 63),
     128 ||| ((n >>> 6) &&& 63), 128 ||| (n &&& 63)]

/-- UTF-8 bytes of a string (Python `str.encode()`). -/
def encodeStr (s : List Char) : List Nat := (s.map utf8Char).flatten

/-- Model of `hashlib.sha256(s.encode()).hexdigest()`: the lowercase-hex
rendering of the SHA-256 digest of the UTF-8 bytes of `s`. -/
def sha256Hex (s : List Char) : List Char :=
  ((sha256Bytes (encodeStr s)).map byteToHex).flatten

example : sha256Hex ("abc".data) =
    ("ba7816bf8f01cfea414140de5dae2223b00361a396177a9cb410ff61f20015ad".data) := by
  decide

example : sha256Hex ([]) =
    ("e3b0c44298fc1c149afbf4c8996fb92427ae41e4649b934ca495991b7852b855".data) := by
  decide

/-! ## Data model (`app/models/api_key.py`, `app/models/usage.py`)

Opaque identifiers (UUID columns) and timestamps are modelled as `Nat`;
calendar dates as an opaque `Nat` code.  Columns not read or written by
any modelled operation (`created_at`, `updated_at`, `expires_at`) are
omitted. -/

/-- Row of the `api_keys` table.  The source field `prefix` is a Lean
keyword and is rendered `prefix_`. -/
structure ApiKey where
  id : Nat
  user_id : Nat
  key_hash : List Char
  name : List Char
  prefix_ : List Char
  is_active : Bool
  last_used_at : Option Nat
deriving DecidableEq

/-- Row of the `usage` table (`image_count` is a Python `int`). -/
structure Usage where
  id : Nat
  api_key_id : Nat
  usage_date : Nat
  image_count : Int
deriving DecidableEq

/-- Errors raised by the backing store. -/
inductive DbErr where
  /-- Uniqueness-constraint violation raised at flush (`IntegrityError`). -/
  | integrityError
  /-- `MultipleResultsFound` raised by `scalar_one_or_none`. -/
  | multipleResults
  /-- Transient backing-store failure (connection loss, timeout). -/
  | storeError
deriving DecidableEq

instance {ε α : Type} [DecidableEq ε] [DecidableEq α] :
    DecidableEq (Except ε α) := fun x y =>
  match x, y with
  | .ok a, .ok b => decidable_of_iff (a = b) (by simp)
  | .error a, .error b => decidable_of_iff (a = b) (by simp)
  | .ok _, .error _ => isFalse (by simp)
  | .error _, .ok _ => isFalse (by simp)

/-- SQLAlchemy `Result.scalar_one_or_none()`: `none` on zero rows, the
row on exactly one, `MultipleResultsFound` otherwise. -/
def scalar_one_or_none {α : Type} : List α → Except DbErr (Option α)
  | [] => .ok none
  | [x] => .ok (some x)
  | _ => .error .multipleResults

/-! ## `app/features/keys/service.py` -/

/-- The fixed literal key prefix, 8 characters. -/
def nbLive : List Char := "nb_live_".data

/-- Model of `secrets.token_hex(16)`: the lowercase-hex rendering of 16
random bytes.  The cryptographically secure random source is modelled by
the explicit byte-list argument. -/
def token_hex (bytes : List Nat) : List Char := (bytes.map byteToHex).flatten

/-- Lines 13-26 of keys/service.py: `generate_api_key()`, returning
`(full_key, key_hash, prefix)`. -/
def generate_api_key (bytes : List Nat) : List Char × List Char × List Char :=
  let full_key := nbLive ++ token_hex bytes
  let key_hash := sha256Hex full_key
  let prefix_ := full_key.take 8
  (full_key, key_hash, prefix_)

/-- Python string truthiness in `name or "Default Key"`: `None` and the
empty string are falsy. -/
def pyOrStr (x : Option (List Char)) (d : List Char) : List Char :=
  match x with
  | none => d
  | some s => if s.isEmpty then d else s

/-- Lines 29-56 of keys/service.py: `create_api_key(db, user_id, name)`.
The fresh UUID primary key and the random bytes are explicit arguments;
the flush enforces the primary key and the `key_hash` uniqueness
constraint of `app/models/api_key.py` and returns `IntegrityError` when
either is violated. -/
def create_api_key (db : List ApiKey) (user_id : Nat) (name : Option (List Char))
    (newId : Nat) (bytes : List Nat) :
    Except DbErr (List ApiKey × ApiKey × List Char) :=
  let g := generate_api_key bytes
  let api_key : ApiKey :=
    { id := newId
      user_id := user_id
      key_hash := g.2.1
      name := pyOrStr name ("Default Key".data)
      prefix_ := g.2.2
      is_active := true
      last_used_at := none }
  if db.any (fun k => k.id == newId || k.key_hash == g.2.1) then
    .error .integrityError
  else
    .ok (db ++ [api_key], api_key, g.1)

/-- Lines 77-88 of keys/service.py: `get_key_by_hash(db, key_hash)`. -/
def get_key_by_hash (db : List ApiKey) (key_hash : List Char) :
    Except DbErr (Option ApiKey) :=
  scalar_one_or_none (db.filter (fun k => k.key_hash == key_hash))

/-- Lines 91-112 of keys/service.py: `revoke_key(db, key_id, user_id)`.
The flush writes the mutated row back by primary key (UPDATE WHERE id). -/
def revoke_key (db : List ApiKey) (key_id user_id : Nat) :
    Except DbErr (Bool × List ApiKey) :=
  match scalar_one_or_none
      (db.filter (fun k => k.id == key_id && k.user_id == user_id)) with
  | .error e => .error e
  | .ok none => .ok (false, db)
  | .ok (some api_key) =>
      .ok (true, db.map (fun k =>
        if k.id == api_key.id then { api_key with is_active := false } else k))

/-- Lines 115-124 of keys/service.py: `update_last_used(db, api_key)`.
Whether the flush succeeds is an explicit oracle argument `flushOk`,
modelling the nondeterministic backing store; on failure the store is
unchanged and the error is raised to the caller. -/
def update_last_used (db : List ApiKey) (api_key : ApiKey) (flushOk : Bool)
    (now : Nat) : Except DbErr (List ApiKey × ApiKey) :=
  let key' := { api_key with last_used_at := some now }
  if flushOk then
    .ok (db.map (fun k => if k.id == api_key.id then key' else k), key')
  else
    .error .storeError

/-! ## `app/features/keys/dependencies.py` -/

/-- Failure of the authentication dependency: either an
`HTTPException(status, detail)` it raises itself, or an uncaught
storage exception propagating through it. -/
inductive AuthErr where
  | http (status : Nat) (detail : List Char)
  | db (e : DbErr)
deriving DecidableEq

/-- Accumulator-based worker for Python `str.split()` (split on runs of
whitespace, no empty parts). -/
def splitWsAux : List Char → List Char → List (List Char)
  | [], acc => if acc.isEmpty then [] else [acc.reverse]
  | c :: rest, acc =>
      if c.isWhitespace then
        if acc.isEmpty then splitWsAux rest []
        else acc.reverse :: splitWsAux rest []
      else splitWsAux rest (c :: acc)

/-- Python `str.split()` with no argument. -/
def splitWs (s : List Char) : List (List Char) := splitWsAux s []

/-- Python `str.lower()` (ASCII suffices for the compared literals). -/
def lowerStr (s : List Char) : List Char := s.map Char.toLower

/-- Lines 50-79 of keys/dependencies.py: the stages of
`get_api_key_from_header` from the extracted `api_key_str` on: format
check, digest, lookup, active check, last-used touch. -/
def authenticateToken (api_key_str : List Char) (db : List ApiKey)
    (touchOk : Bool) (now : Nat) : Except AuthErr (ApiKey × List ApiKey) :=
  if !(List.isPrefixOf nbLive api_key_str) || api_key_str.length != 40 then
    .error (.http 401 ("Invalid API key format".data))
  else
    let key_hash := sha256Hex api_key_str
    match get_key_by_hash db key_hash with
    | .error e => .error (.db e)
    | .ok none => .error (.http 401 ("Invalid API key".data))
    | .ok (some api_key) =>
      if !api_key.is_active then
        .error (.http 401 ("API key has been revoked".data))
      else
        match update_last_used db api_key touchOk now with
        | .error e => .error (.db e)
        | .ok (db', key') => .ok (key', db')

/-- Lines 14-79 of keys/dependencies.py: `get_api_key_from_header`.
The `Authorization` header is `none` when absent.  `touchOk` is the
flush oracle threaded to `update_last_used`; there is no `try/except`
around the touch, so its error propagates (as `.db`).  On success the
function returns the validated key and the updated store. -/
def get_api_key_from_header (auth_header : Option (List Char))
    (db : List ApiKey) (touchOk : Bool) (now : Nat) :
    Except AuthErr (ApiKey × List ApiKey) :=
  match auth_header with
  | none => .error (.http 401 ("Missing Authorization header".data))
  | some hdr =>
    if hdr.isEmpty then
      .error (.http 401 ("Missing Authorization header".data))
    else
      let parts := splitWs hdr
      if parts.length != 2 || lowerStr (parts.getD 0 []) != ("bearer".data) then
        .error (.http 401 ("Invalid Authorization header format".data))
      else
        authenticateToken (parts.getD 1 []) db touchOk now

/-! ## `app/features/keys/rate_limit.py` and the usage ledger

The ledger store is a `List Usage`.  `today` (Python `date.today()`) is
an explicit argument. -/

/-- Lines 12-42 of rate_limit.py: `check_daily_limit(db, api_key,
daily_limit)`.  The function only executes a SELECT: accordingly the
embedding returns no new store state.  Absence of a row yields a current
usage of 0. -/
def check_daily_limit (db : List Usage) (api_key : ApiKey) (daily_limit : Int)
    (today : Nat) : Except DbErr (Bool × Int) :=
  match scalar_one_or_none
      ((db.filter (fun u =>
        u.api_key_id == api_key.id && u.usage_date == today)).map
        (fun u => u.image_count)) with
  | .error e => .error e
  | .ok usage_record =>
    let current_usage := usage_record.getD 0
    .ok (decide (current_usage < daily_limit), current_usage)

/-- The SELECT of lines 59-62 of rate_limit.py (`increment_usage`):
find the usage row for `(api_key_id, today)`. -/
def selectUsage (db : List Usage) (api_key_id today : Nat) :
    Except DbErr (Option Usage) :=
  scalar_one_or_none (db.filter (fun u =>
    u.api_key_id == api_key_id && u.usage_date == today))

/-- The write of lines 64-74 of rate_limit.py: given the previously
selected row `r`, either INSERT a fresh row with `image_count = count`
or UPDATE the selected row to its selected value plus `count` (the ORM
writes back the mutated object by primary key).  The flush checks the
`uq_usage_api_key_date` uniqueness constraint and the primary key of
`app/models/usage.py` on INSERT and raises `IntegrityError` when
violated; the code has no conflict handling. -/
def writeUsage (db : List Usage) (api_key_id today : Nat) (count : Int)
    (newId : Nat) (r : Option Usage) : Except DbErr (List Usage) :=
  match r with
  | none =>
      if db.any (fun u =>
          (u.api_key_id == api_key_id && u.usage_date == today) ||
            u.id == newId) then
        .error .integrityError
      else
        .ok (db ++ [{ id := newId, api_key_id := api_key_id,
                      usage_date := today, image_count := count }])
  | some usage_record =>
      .ok (db.map (fun u =>
        if u.id == usage_record.id then
          { usage_record with image_count := usage_record.image_count + count }
        else u))

/-- Lines 45-74 of rate_limit.py: `increment_usage(db, api_key_id,
count)` run without interference: the SELECT followed by the write. -/
def increment_usage (db : List Usage) (api_key_id : Nat) (count : Int)
    (today : Nat) (newId : Nat) : Except DbErr (List Usage) :=
  match selectUsage db api_key_id today with
  | .error e => .error e
  | .ok r => writeUsage db api_key_id today count newId r

/-- Lines 178-209 of generate/service.py: `record_usage(db, api_key_id)`
is the same select-then-write pattern with a hardcoded delta of 1. -/
def record_usage (db : List Usage) (api_key_id : Nat) (today : Nat)
    (newId : Nat) : Except DbErr (List Usage) :=
  increment_usage db api_key_id 1 today newId

/-! ## Interleaving model for concurrent `increment_usage` calls

Each in-flight call is a task that suspends at the `await` between its
SELECT (lines 59-62) and its flush (lines 64-74); the scheduler may
interleave tasks arbitrarily at that point, which models concurrent
request handlers sharing one backing store. -/

/-- Static data of one `increment_usage` call. -/
structure IncTask where
  api_key_id : Nat
  usage_date : Nat
  count : Int
  newId : Nat
deriving DecidableEq

/-- Progress of one in-flight `increment_usage` call. -/
inductive IncPhase where
  /-- Before the SELECT. -/
  | start
  /-- Holding the SELECT result, before the flush. -/
  | selected (r : Option Usage)
  /-- Completed normally. -/
  | done
  /-- Terminated by a raised store error. -/
  | failed (e : DbErr)
deriving DecidableEq

/-- Run one atomic step of one `increment_usage` task against the shared
store. -/
def stepInc (db : List Usage) (t : IncTask) :
    IncPhase → List Usage × IncPhase
  | .start =>
      match selectUsage db t.api_key_id t.usage_date with
      | .error e => (db, .failed e)
      | .ok r => (db, .selected r)
  | .selected r =>
      match writeUsage db t.api_key_id t.usage_date t.count t.newId r with
      | .error e => (db, .failed e)
      | .ok db' => (db', .done)
  | .done => (db, .done)
  | .failed e => (db, .failed e)

/-- Run a schedule: each entry picks the index of the task to step next. -/
def runSched (db : List Usage) (tasks : List (IncTask × IncPhase)) :
    List Nat → List Usage × List (IncTask × IncPhase)
  | [] => (db, tasks)
  | i :: rest =>
      match tasks.get? i with
      | none => runSched db tasks rest
      | some (t, p) =>
          let s := stepInc db t p
          runSched s.1 (tasks.set i (t, s.2)) rest

/-- Sanity: a task stepped to completion without interference computes
exactly `increment_usage`. -/
theorem stepInc_seq (db : List Usage) (t : IncTask) :
    (match stepInc db t .start with
     | (db', .selected r) => (stepInc db' t (.selected r)).1
     | (db', _) => db') =
      match increment_usage db t.api_key_id t.count t.usage_date t.newId with
      | .ok db' => db'
      | .error _ => db := by
  unfold stepInc increment_usage
  cases h : selectUsage db t.api_key_id t.usage_date with
  | error e => simp
  | ok r =>
      simp only []
      cases hw : writeUsage db t.api_key_id t.usage_date t.count t.newId r with
      | error e => simp [hw]
      | ok db' => simp [hw]

/-! ## Helper lemmas -/

/-- The lowercase hexadecimal alphabet. -/
def hexDigits : List Char := "0123456789abcdef".data

theorem hexChar_mem_hexDigits : ∀ n < 16, hexChar n ∈ hexDigits := by decide

theorem token_hex_length (bytes : List Nat) :
    (token_hex bytes).length = 2 * bytes.length := by
  induction bytes with
  | nil => rfl
  | cons b bs ih =>
      simp only [token_hex, List.map_cons, List.flatten_cons,
        List.length_append, List.length_cons] at ih ⊢
      simp only [byteToHex, List.length_cons, List.length_nil]
      omega

theorem token_hex_mem_hexDigits (bytes : List Nat) (hb : ∀ b ∈ bytes, b < 256) :
    ∀ c ∈ token_hex bytes, c ∈ hexDigits := by
  intro c hc
  simp only [token_hex, List.mem_flatten, List.mem_map] at hc
  obtain ⟨l, ⟨b, hbmem, rfl⟩, hcl⟩ := hc
  have hblt := hb b hbmem
  simp only [byteToHex, List.mem_cons, List.not_mem_nil, or_false] at hcl
  rcases hcl with rfl | rfl
  · exact hexChar_mem_hexDigits _ (Nat.div_lt_of_lt_mul (by omega))
  · exact hexChar_mem_hexDigits _ (Nat.mod_lt _ (by omega))

theorem nbLive_length : nbLive.length = 8 := rfl

/-- Under a uniqueness constraint on `f` (pairwise-distinct key values),
a filter whose predicate pins the key of a matching element `k` returns
exactly `[k]`. -/
theorem filter_eq_single_of_pairwise {α β : Type} (f : α → β) (l : List α)
    (p : α → Bool) (hnd : l.Pairwise (fun a b => f a ≠ f b))
    (k : α) (hk : k ∈ l) (hpk : p k = true)
    (hp : ∀ j, p j = true → f j = f k) :
    l.filter p = [k] := by
  induction l with
  | nil => cases hk
  | cons a rest ih =>
      obtain ⟨ha, hrest⟩ := List.pairwise_cons.mp hnd
      rcases List.mem_cons.mp hk with rfl | hk'
      · rw [List.filter_cons_of_pos hpk]
        have hnil : rest.filter p = [] := by
          rw [List.filter_eq_nil_iff]
          intro j hj hpj
          exact ha j hj ((hp j (by simpa using hpj)).symm)
        rw [hnil]
      · have hpa : p a = false := by
          cases hcase : p a with
          | false => rfl
          | true => exact absurd (hp a hcase) (ha k hk')
        rw [List.filter_cons_of_neg (by simp [hpa])]
        exact ih hrest hk'

/-- Under a uniqueness constraint on `f`, a filter whose matches all
share one key value returns zero or one element. -/
theorem filter_subsingleton_of_pairwise {α β : Type} (f : α → β) (l : List α)
    (p : α → Bool) (hnd : l.Pairwise (fun a b => f a ≠ f b))
    (hp : ∀ j j', p j = true → p j' = true → f j = f j') :
    l.filter p = [] ∨ ∃ k, k ∈ l ∧ p k = true ∧ l.filter p = [k] := by
  cases hall : l.filter p with
  | nil => exact Or.inl rfl
  | cons k tail =>
      have hk : k ∈ l ∧ p k = true := by
        have : k ∈ l.filter p := by rw [hall]; exact List.mem_cons_self k tail
        simpa using List.mem_filter.mp this
      exact Or.inr ⟨k, hk.1, hk.2,
        hall.symm.trans (filter_eq_single_of_pairwise f l p hnd k hk.1 hk.2
          (fun j hj => hp j k hj hk.2))⟩

/-- Two members of a pairwise-`f`-distinct list with the same key value
are equal. -/
theorem mem_eq_of_pairwise {α β : Type} (f : α → β) (l : List α)
    (hnd : l.Pairwise (fun a b => f a ≠ f b))
    (j k : α) (hj : j ∈ l) (hk : k ∈ l) (hf : f j = f k) : j = k := by
  induction l with
  | nil => cases hj
  | cons a rest ih =>
      obtain ⟨ha, hrest⟩ := List.pairwise_cons.mp hnd
      rcases List.mem_cons.mp hj with rfl | hj' <;>
        rcases List.mem_cons.mp hk with rfl | hk'
      · rfl
      · exact absurd hf (ha k hk')
      · exact absurd hf.symm (ha j hj')
      · exact ih hrest hj' hk'

/-- Mapping a function that fixes every member leaves the list unchanged. -/
theorem map_id_of_mem {α : Type} (l : List α) (g : α → α)
    (h : ∀ a ∈ l, g a = a) : l.map g = l := by
  induction l with
  | nil => rfl
  | cons a rest ih =>
      rw [List.map_cons, h a (List.mem_cons_self a rest),
        ih (fun b hb => h b (List.mem_cons_of_mem a hb))]

theorem splitWsAux_no_ws (tok : List Char)
    (hws : ∀ c ∈ tok, c.isWhitespace = false) :
    ∀ acc : List Char, acc ≠ [] → splitWsAux tok acc = [acc.reverse ++ tok] := by
  induction tok with
  | nil =>
      intro acc hacc
      rw [splitWsAux, if_neg (by simpa using hacc)]
      simp
  | cons c rest ih =>
      intro acc hacc
      rw [splitWsAux, if_neg (by
        simp [hws c (List.mem_cons_self c rest)])]
      rw [ih (fun d hd => hws d (List.mem_cons_of_mem c hd)) (c :: acc)
        (by simp)]
      simp

/-- Splitting `Bearer <tok>` on whitespace yields the two expected
parts, provided the token itself is nonempty and whitespace-free. -/
theorem splitWs_bearer (tok : List Char)
    (hws : ∀ c ∈ tok, c.isWhitespace = false) (hne : tok ≠ []) :
    splitWs (("Bearer ".data) ++ tok) = [("Bearer".data), tok] := by
  obtain ⟨c, rest, rfl⟩ := List.exists_cons_of_ne_nil hne
  have h1 : splitWs (("Bearer ".data) ++ (c :: rest)) =
      ("Bearer".data) :: splitWsAux rest [c] := by
    rw [show splitWs (("Bearer ".data) ++ (c :: rest)) =
        ("Bearer".data) :: splitWsAux (c :: rest) [] from rfl]
    rw [splitWsAux, if_neg (by
      simp [hws c (List.mem_cons_self c rest)])]
  rw [h1, splitWsAux_no_ws rest
    (fun d hd => hws d (List.mem_cons_of_mem c hd)) [c] (by simp)]
  simp

/-- Authenticating a `Bearer <tok>` header reduces to the token stages,
provided the token itself is nonempty and whitespace-free. -/
theorem get_api_key_from_header_bearer (tok : List Char)
    (hws : ∀ c ∈ tok, c.isWhitespace = false) (hne : tok ≠ [])
    (db : List ApiKey) (touchOk : Bool) (now : Nat) :
    get_api_key_from_header (some (("Bearer ".data) ++ tok)) db touchOk now =
      authenticateToken tok db touchOk now := by
  rw [get_api_key_from_header]
  rw [if_neg (by
    obtain ⟨c, rest, rfl⟩ := List.exists_cons_of_ne_nil hne
    rw [show (("Bearer ".data) ++ (c :: rest)).isEmpty = false from rfl]
    simp)]
  rw [splitWs_bearer tok hws hne]
  rw [if_neg (by
    rw [show ((([("Bearer".data), tok] : List (List Char)).length != 2) ||
        (lowerStr (([("Bearer".data), tok] : List (List Char)).getD 0 []) !=
          ("bearer".data))) = false from rfl]
    simp)]
  rfl

/-! ## Claim theorems -/

/-- C6: for every call to `generate_api_key` (any 16-byte random draw),
the returned plaintext is exactly 40 characters, namely the fixed
8-character literal prefix `nb_live_` followed by 32 lowercase-hex
characters; the returned hash is the hex-rendered SHA-256 digest of the
plaintext; and the returned display prefix equals the first 8 characters
of the plaintext. -/
theorem c6_generate_key_format (bytes : List Nat) (hlen : bytes.length = 16)
    (hb : ∀ b ∈ bytes, b < 256) :
    (generate_api_key bytes).1.length = 40 ∧
    (generate_api_key bytes).1.take 8 = nbLive ∧
    ((generate_api_key bytes).1.drop 8).length = 32 ∧
    (∀ c ∈ (generate_api_key bytes).1.drop 8, c ∈ hexDigits) ∧
    (generate_api_key bytes).2.1 = sha256Hex ((generate_api_key bytes).1) ∧
    (generate_api_key bytes).2.2 = (generate_api_key bytes).1.take 8 := by
  have hfk : (generate_api_key bytes).1 = nbLive ++ token_hex bytes := rfl
  have hlen2 : (token_hex bytes).length = 32 := by
    rw [token_hex_length, hlen]
  have htake : (nbLive ++ token_hex bytes).take 8 = nbLive := by
    have := List.take_left nbLive (token_hex bytes)
    rwa [nbLive_length] at this
  have hdrop : (nbLive ++ token_hex bytes).drop 8 = token_hex bytes := by
    have := List.drop_left nbLive (token_hex bytes)
    rwa [nbLive_length] at this
  refine ⟨?_, ?_, ?_, ?_, rfl, rfl⟩
  · rw [hfk, List.length_append, nbLive_length, hlen2]
  · rw [hfk, htake]
  · rw [hfk, hdrop, hlen2]
  · rw [hfk, hdrop]
    exact token_hex_mem_hexDigits bytes hb

/-- Witness for C6 at the all-zero 16-byte draw. -/
theorem c6_witness :
    (List.replicate 16 0).length = 16 ∧
    (generate_api_key (List.replicate 16 0)).1.length = 40 ∧
    (generate_api_key (List.replicate 16 0)).1.take 8 = nbLive := by
  have h := c6_generate_key_format (List.replicate 16 0) (by decide)
    (by decide)
  exact ⟨by decide, h.1, h.2.1⟩

/-- C10: the stored name of a created key is the supplied non-empty name,
and the literal `Default Key` when the optional name is absent or empty
(Python `name or "Default Key"`). -/
theorem c10_create_key_default_name (db : List ApiKey) (user_id : Nat)
    (name : Option (List Char)) (newId : Nat) (bytes : List Nat)
    (db' : List ApiKey) (k : ApiKey) (fk : List Char)
    (h : create_api_key db user_id name newId bytes = .ok (db', k, fk)) :
    ((name = none ∨ name = some []) → k.name = ("Default Key".data)) ∧
    (∀ s, name = some s → s ≠ [] → k.name = s) ∧ k ∈ db' := by
  unfold create_api_key at h
  by_cases hc : (db.any (fun j =>
      j.id == newId || j.key_hash == (generate_api_key bytes).2.1)) = true
  · rw [if_pos hc] at h
    exact absurd h (by simp)
  · rw [if_neg hc] at h
    obtain ⟨hdb, hk, hfk⟩ := by
      simpa using h
    refine ⟨?_, ?_, ?_⟩
    · rintro (rfl | rfl) <;> simp [← hk, pyOrStr]
    · rintro s rfl hs
      simp [← hk, pyOrStr, hs]
    · rw [← hdb, ← hk]
      simp

/-- Witness for C10: creating a key with no supplied name on an empty
store gives the name `Default Key`. -/
theorem c10_witness :
    (ApiKey.mk 7 1 (sha256Hex (nbLive ++ token_hex (List.replicate 16 0)))
        ("Default Key".data)
        ((nbLive ++ token_hex (List.replicate 16 0)).take 8) true none).name =
      ("Default Key".data) :=
  (c10_create_key_default_name [] 1 none 7 (List.replicate 16 0)
    [ApiKey.mk 7 1 (sha256Hex (nbLive ++ token_hex (List.replicate 16 0)))
        ("Default Key".data)
        ((nbLive ++ token_hex (List.replicate 16 0)).take 8) true none]
    (ApiKey.mk 7 1 (sha256Hex (nbLive ++ token_hex (List.replicate 16 0)))
        ("Default Key".data)
        ((nbLive ++ token_hex (List.replicate 16 0)).take 8) true none)
    (nbLive ++ token_hex (List.replicate 16 0)) rfl).1 (Or.inl rfl)

/-- Specification-side count for one `(key, day)` pair: the sum of the
recorded counts over the matching ledger rows (`countForDay` of the
spec); used to compare `check_daily_limit` against the spec. -/
def countForDaySpec (db : List Usage) (api_key_id today : Nat) : Int :=
  ((db.filter (fun u =>
    u.api_key_id == api_key_id && u.usage_date == today)).map
    (fun u => u.image_count)).sum

/-- C7: under the `(api_key_id, usage_date)` uniqueness constraint,
`check_daily_limit` returns `(currentCount < dailyLimit, currentCount)`
where `currentCount` is today's recorded count, and an absent record
counts as zero rather than an error.  The embedding returns no ledger
state because the source only executes a SELECT. -/
theorem c7_check_limit_pure_read (db : List Usage) (api_key : ApiKey)
    (daily_limit : Int) (today : Nat)
    (hnd : db.Pairwise (fun a b =>
      (a.api_key_id, a.usage_date) ≠ (b.api_key_id, b.usage_date))) :
    check_daily_limit db api_key daily_limit today =
      .ok (decide (countForDaySpec db api_key.id today < daily_limit),
        countForDaySpec db api_key.id today) ∧
    ((∀ u ∈ db, ¬(u.api_key_id = api_key.id ∧ u.usage_date = today)) →
      countForDaySpec db api_key.id today = 0) := by
  have hsub := filter_subsingleton_of_pairwise
    (fun u => (u.api_key_id, u.usage_date)) db
    (fun u => u.api_key_id == api_key.id && u.usage_date == today) hnd
    (by
      intro j j' hj hj'
      simp only [Bool.and_eq_true, beq_iff_eq] at hj hj'
      simp [hj.1, hj.2, hj'.1, hj'.2])
  constructor
  · rcases hsub with hnil | ⟨u, humem, hpu, hone⟩
    · rw [check_daily_limit, countForDaySpec, hnil]
      rfl
    · rw [check_daily_limit, countForDaySpec, hone]
      simp [scalar_one_or_none]
  · intro habs
    have hnil : db.filter (fun u =>
        u.api_key_id == api_key.id && u.usage_date == today) = [] := by
      rw [List.filter_eq_nil_iff]
      intro u hu hpu
      simp only [Bool.and_eq_true, beq_iff_eq] at hpu
      exact habs u hu hpu
    rw [countForDaySpec, hnil]
    rfl

/-- Witness for C7: a ledger holding one row with count 5 for the pair,
checked against limit 100. -/
theorem c7_witness :
    check_daily_limit [Usage.mk 9 1 0 5]
        (ApiKey.mk 1 1 [] [] [] true none) 100 0 = .ok (true, 5) := by
  have h := (c7_check_limit_pure_read [Usage.mk 9 1 0 5]
    (ApiKey.mk 1 1 [] [] [] true none) 100 0 (by decide)).1
  rw [h]
  decide

/-- When no key matches both id and owner, `revoke_key` returns false
and leaves the store unchanged. -/
theorem revoke_key_of_absent (db : List ApiKey) (key_id user_id : Nat)
    (habs : ∀ k ∈ db, ¬(k.id = key_id ∧ k.user_id = user_id)) :
    revoke_key db key_id user_id = .ok (false, db) := by
  have hnil : db.filter (fun k =>
      k.id == key_id && k.user_id == user_id) = [] := by
    rw [List.filter_eq_nil_iff]
    intro k hk hpk
    simp only [Bool.and_eq_true, beq_iff_eq] at hpk
    exact habs k hk hpk
  rw [revoke_key, hnil]
  rfl

/-- When key `k` matches id and owner, `revoke_key` (under the
primary-key uniqueness constraint) returns true and writes `k` back
deactivated. -/
theorem revoke_key_of_mem (db : List ApiKey) (key_id user_id : Nat)
    (hnd : db.Pairwise (fun a b => a.id ≠ b.id))
    (k : ApiKey) (hk : k ∈ db) (hid : k.id = key_id)
    (huid : k.user_id = user_id) :
    revoke_key db key_id user_id =
      .ok (true, db.map (fun j =>
        if j.id == key_id then { k with is_active := false } else j)) := by
  have hone : db.filter (fun j =>
      j.id == key_id && j.user_id == user_id) = [k] := by
    apply filter_eq_single_of_pairwise ApiKey.id db _ hnd k hk
      (by simp [hid, huid])
    intro j hj
    simp only [Bool.and_eq_true, beq_iff_eq] at hj
    rw [hj.1, hid]
  rw [revoke_key, hone]
  simp only [scalar_one_or_none, hid]

/-- C8: under the primary-key uniqueness constraint, `revoke_key`
returns true and sets `is_active := false` exactly when a key with the
given id exists and belongs to the given owner; otherwise (key absent or
owned by someone else) it returns false without an error and leaves the
store unchanged, so a key owned by another user stays active. -/
theorem c8_revoke_requires_ownership (db : List ApiKey) (key_id user_id : Nat)
    (hnd : db.Pairwise (fun a b => a.id ≠ b.id)) :
    ((∀ k ∈ db, ¬(k.id = key_id ∧ k.user_id = user_id)) →
      revoke_key db key_id user_id = .ok (false, db)) ∧
    (∀ k ∈ db, k.id = key_id → k.user_id = user_id →
      revoke_key db key_id user_id =
        .ok (true, db.map (fun j =>
          if j.id == key_id then { k with is_active := false } else j))) :=
  ⟨fun habs => revoke_key_of_absent db key_id user_id habs,
   fun k hk hid huid => revoke_key_of_mem db key_id user_id hnd k hk hid huid⟩

/-- Witness for C8: revoking key 1, owned by user 2, on behalf of user 1
returns false and changes nothing. -/
theorem c8_witness :
    revoke_key [ApiKey.mk 1 2 [] [] [] true none] 1 1 =
      .ok (false, [ApiKey.mk 1 2 [] [] [] true none]) :=
  (c8_revoke_requires_ownership [ApiKey.mk 1 2 [] [] [] true none] 1 1
    (by decide)).1 (by decide)

/-- C9: revocation is idempotent at the store interface: the ownership
lookup of `revoke_key` does not filter on `is_active`, so revoking an
owned key that is already inactive returns true again (not false) and
leaves the store — in particular the key's inactive status — unchanged. -/
theorem c9_revoke_idempotent (db : List ApiKey) (key_id user_id : Nat)
    (hnd : db.Pairwise (fun a b => a.id ≠ b.id))
    (k : ApiKey) (hk : k ∈ db) (hid : k.id = key_id)
    (huid : k.user_id = user_id) (hact : k.is_active = false) :
    revoke_key db key_id user_id = .ok (true, db) := by
  rw [revoke_key_of_mem db key_id user_id hnd k hk hid huid]
  have hkk : { k with is_active := false } = k := by
    cases k
    simp only at hact
    rw [hact]
  rw [hkk]
  have hmap : db.map (fun j => if j.id == key_id then k else j) = db := by
    apply map_id_of_mem
    intro j hj
    cases hcase : (j.id == key_id) with
    | false => simp
    | true =>
        have hjk : j = k := mem_eq_of_pairwise ApiKey.id db hnd j k hj hk
          (by rw [beq_iff_eq] at hcase; rw [hcase, hid])
        simp [hjk]
  rw [hmap]

/-- Witness for C9: revoking an already-inactive owned key returns true
and leaves the store unchanged. -/
theorem c9_witness :
    revoke_key [ApiKey.mk 1 1 [] [] [] false none] 1 1 =
      .ok (true, [ApiKey.mk 1 1 [] [] [] false none]) :=
  c9_revoke_idempotent [ApiKey.mk 1 1 [] [] [] false none] 1 1 (by decide)
    (ApiKey.mk 1 1 [] [] [] false none) (by decide) rfl rfl rfl

/-- C2 (amended): a bearer token of the wrong length or with the wrong
literal prefix is rejected by the format check with 401 `Invalid API key
format`, and the result does not depend on the key store (no lookup is
reached).  The original claim also covered tokens whose 32-character
suffix is non-hex; the code checks only prefix and length, so such
tokens pass the format check — see the counterexample. -/
theorem c2_format_rejects_before_lookup (tok : List Char)
    (hws : ∀ c ∈ tok, c.isWhitespace = false) (hne : tok ≠ [])
    (hbad : ¬(List.isPrefixOf nbLive tok = true ∧ tok.length = 40))
    (db : List ApiKey) (touchOk : Bool) (now : Nat) :
    get_api_key_from_header (some (("Bearer ".data) ++ tok)) db touchOk now =
      .error (.http 401 ("Invalid API key format".data)) := by
  rw [get_api_key_from_header_bearer tok hws hne db touchOk now]
  have hcond : (!(List.isPrefixOf nbLive tok) || tok.length != 40) = true := by
    cases hp : List.isPrefixOf nbLive tok with
    | false => simp [hp]
    | true =>
        have hlen : tok.length ≠ 40 := fun hl => hbad ⟨hp, hl⟩
        simp [hlen]
  rw [authenticateToken, if_pos hcond]

/-- Counterexample to C2 as stated: the 40-character token with the
correct prefix and the non-hex suffix `zzzz…` passes the format check,
reaches the store lookup, and even authenticates successfully against a
store holding a key under that token's digest. -/
theorem c2_counterexample :
    get_api_key_from_header
        (some (("Bearer ".data) ++ (nbLive ++ List.replicate 32 'z')))
        [ApiKey.mk 1 1 (sha256Hex (nbLive ++ List.replicate 32 'z'))
          [] nbLive true none] true 0 =
      .ok (ApiKey.mk 1 1 (sha256Hex (nbLive ++ List.replicate 32 'z'))
          [] nbLive true (some 0),
        [ApiKey.mk 1 1 (sha256Hex (nbLive ++ List.replicate 32 'z'))
          [] nbLive true (some 0)]) := by
  decide

/-- Witness for C2: a token with the right prefix but wrong length is
rejected by the format check against any store (here the empty one). -/
theorem c2_witness :
    get_api_key_from_header (some (("Bearer ".data) ++ ("nb_live_abc".data)))
        [] true 0 =
      .error (.http 401 ("Invalid API key format".data)) :=
  c2_format_rejects_before_lookup ("nb_live_abc".data) (by decide) (by decide)
    (by decide) [] true 0

/-- C3 (amended): when authentication resolves a valid active key but
the `last_used_at` flush fails, the failure is not swallowed: there is
no `try/except` around `update_last_used`, so the storage error
propagates out of the dependency and the resolved key is not returned. -/
theorem c3_touch_failure_propagates (tok : List Char) (db : List ApiKey)
    (now : Nat) (k : ApiKey)
    (hws : ∀ c ∈ tok, c.isWhitespace = false) (hne : tok ≠ [])
    (hfmt : List.isPrefixOf nbLive tok = true ∧ tok.length = 40)
    (hfound : get_key_by_hash db (sha256Hex tok) = .ok (some k))
    (hact : k.is_active = true) :
    get_api_key_from_header (some (("Bearer ".data) ++ tok)) db false now =
      .error (.db .storeError) := by
  rw [get_api_key_from_header_bearer tok hws hne db false now]
  simp only [authenticateToken]
  rw [if_neg (by simp [hfmt.1, hfmt.2])]
  rw [hfound]
  simp [hact, update_last_used]

/-- Counterexample to C3 as stated: with a store holding one valid
active key and a failing touch flush, authenticating with that key's
token surfaces the storage error instead of returning the key. -/
theorem c3_counterexample :
    get_api_key_from_header
        (some (("Bearer ".data) ++ (nbLive ++ List.replicate 32 'b')))
        [ApiKey.mk 1 1 (sha256Hex (nbLive ++ List.replicate 32 'b'))
          [] nbLive true none] false 0 =
      .error (.db .storeError) := by
  decide

/-- Witness for C3's amended theorem at a concrete store and token. -/
theorem c3_witness :
    get_api_key_from_header
        (some (("Bearer ".data) ++ (nbLive ++ List.replicate 32 'c')))
        [ApiKey.mk 1 1 (sha256Hex (nbLive ++ List.replicate 32 'c'))
          [] nbLive true none] false 5 =
      .error (.db .storeError) :=
  c3_touch_failure_propagates (nbLive ++ List.replicate 32 'c')
    [ApiKey.mk 1 1 (sha256Hex (nbLive ++ List.replicate 32 'c'))
      [] nbLive true none] 5
    (ApiKey.mk 1 1 (sha256Hex (nbLive ++ List.replicate 32 'c'))
      [] nbLive true none)
    (by decide) (by decide) (by decide) (by decide) rfl

/-- C4 (amended): a well-formed token whose hash matches no stored key
and one whose resolved key is revoked both fail with status 401, but
with different detail strings (`Invalid API key` versus `API key has
been revoked`), so the two causes are distinguishable by the detail. -/
theorem c4_unknown_vs_revoked_distinguishable (tok : List Char)
    (db : List ApiKey) (touchOk : Bool) (now : Nat)
    (hws : ∀ c ∈ tok, c.isWhitespace = false) (hne : tok ≠ [])
    (hfmt : List.isPrefixOf nbLive tok = true ∧ tok.length = 40) :
    (get_key_by_hash db (sha256Hex tok) = .ok none →
      get_api_key_from_header (some (("Bearer ".data) ++ tok)) db touchOk now =
        .error (.http 401 ("Invalid API key".data))) ∧
    (∀ k, get_key_by_hash db (sha256Hex tok) = .ok (some k) →
      k.is_active = false →
      get_api_key_from_header (some (("Bearer ".data) ++ tok)) db touchOk now =
        .error (.http 401 ("API key has been revoked".data))) ∧
    ("Invalid API key".data) ≠ ("API key has been revoked".data) := by
  refine ⟨?_, ?_, by decide⟩
  · intro hnone
    rw [get_api_key_from_header_bearer tok hws hne db touchOk now]
    simp only [authenticateToken]
    rw [if_neg (by simp [hfmt.1, hfmt.2])]
    rw [hnone]
  · intro k hsome hact
    rw [get_api_key_from_header_bearer tok hws hne db touchOk now]
    simp only [authenticateToken]
    rw [if_neg (by simp [hfmt.1, hfmt.2])]
    rw [hsome]
    simp [hact]

/-- Counterexample to C4 as stated: against a store holding one revoked
key, the unknown-hash attempt and the revoked-key attempt return
different caller-visible failures (same 401 status, different detail). -/
theorem c4_counterexample :
    get_api_key_from_header
        (some (("Bearer ".data) ++ (nbLive ++ List.replicate 32 'a')))
        [ApiKey.mk 1 1 (sha256Hex (nbLive ++ List.replicate 32 'd'))
          [] nbLive false none] true 0 =
      .error (.http 401 ("Invalid API key".data)) ∧
    get_api_key_from_header
        (some (("Bearer ".data) ++ (nbLive ++ List.replicate 32 'd')))
        [ApiKey.mk 1 1 (sha256Hex (nbLive ++ List.replicate 32 'd'))
          [] nbLive false none] true 0 =
      .error (.http 401 ("API key has been revoked".data)) ∧
    (Except.error (.http 401 ("Invalid API key".data)) :
        Except AuthErr (ApiKey × List ApiKey)) ≠
      .error (.http 401 ("API key has been revoked".data)) := by
  refine ⟨by decide, by decide, by decide⟩

/-- Witness for C4's amended theorem: the revoked-key attempt at a
concrete store, via the theorem's second component. -/
theorem c4_witness :
    get_api_key_from_header
        (some (("Bearer ".data) ++ (nbLive ++ List.replicate 32 'e')))
        [ApiKey.mk 1 1 (sha256Hex (nbLive ++ List.replicate 32 'e'))
          [] nbLive false none] true 0 =
      .error (.http 401 ("API key has been revoked".data)) :=
  (c4_unknown_vs_revoked_distinguishable (nbLive ++ List.replicate 32 'e')
    [ApiKey.mk 1 1 (sha256Hex (nbLive ++ List.replicate 32 'e'))
      [] nbLive false none] true 0
    (by decide) (by decide) (by decide)).2.1
    (ApiKey.mk 1 1 (sha256Hex (nbLive ++ List.replicate 32 'e'))
      [] nbLive false none) (by decide) rfl

/-! ## Operations over the key store, for the permanence of revocation -/

/-- The operations of the modelled system that touch the `api_keys`
table: key creation, revocation, and authentication (which touches
`last_used_at`). -/
inductive KeyOp where
  | createOp (user_id : Nat) (name : Option (List Char)) (newId : Nat)
      (bytes : List Nat)
  | revokeOp (key_id user_id : Nat)
  | authOp (auth_header : Option (List Char)) (touchOk : Bool) (now : Nat)

/-- Resulting key store after one operation (unchanged when the
operation raises). -/
def applyKeyOp (db : List ApiKey) : KeyOp → List ApiKey
  | .createOp uid nm nid bs =>
      match create_api_key db uid nm nid bs with
      | .ok r => r.1
      | .error _ => db
  | .revokeOp kid uid =>
      match revoke_key db kid uid with
      | .ok r => r.2
      | .error _ => db
  | .authOp hdr tOk now =>
      match get_api_key_from_header hdr db tOk now with
      | .ok r => r.2
      | .error _ => db

/-- Resulting key store after a sequence of operations. -/
def applyKeyOps (db : List ApiKey) : List KeyOp → List ApiKey
  | [] => db
  | op :: rest => applyKeyOps (applyKeyOp db op) rest

/-- The key `key_id` exists in the store and every row bearing it is
inactive. -/
def keyRevoked (db : List ApiKey) (key_id : Nat) : Prop :=
  (∃ k ∈ db, k.id = key_id) ∧ ∀ k ∈ db, k.id = key_id → k.is_active = false

/-- A row produced by `scalar_one_or_none` comes from the queried list. -/
theorem scalar_one_or_none_mem {α : Type} (l : List α) (a : α)
    (h : scalar_one_or_none l = .ok (some a)) : a ∈ l := by
  match l with
  | [] => exact absurd h (by simp [scalar_one_or_none])
  | [x] =>
      have : a = x := by simpa [scalar_one_or_none] using h.symm
      simp [this]
  | x :: y :: rest => exact absurd h (by simp [scalar_one_or_none])

/-- A key found by `get_key_by_hash` is a member of the store and bears
the queried hash. -/
theorem get_key_by_hash_ok_some (db : List ApiKey) (h : List Char)
    (a : ApiKey) (hfound : get_key_by_hash db h = .ok (some a)) :
    a ∈ db ∧ a.key_hash = h := by
  have hmem := scalar_one_or_none_mem _ a hfound
  have := List.mem_filter.mp hmem
  exact ⟨this.1, by simpa using this.2⟩

/-- Rewriting every row bearing one id `a.id` to a fixed row `r` with
the same id, inactive whenever `a.id` is the revoked id, preserves
`keyRevoked`. -/
theorem keyRevoked_map_if (db : List ApiKey) (key_id : Nat) (a r : ApiKey)
    (hrid : r.id = a.id) (hract : a.id = key_id → r.is_active = false)
    (hrev : keyRevoked db key_id) :
    keyRevoked (db.map (fun k => if k.id == a.id then r else k)) key_id := by
  obtain ⟨⟨w, hwmem, hwid⟩, hall⟩ := hrev
  constructor
  · by_cases hw : (w.id == a.id) = true
    · refine ⟨r, List.mem_map.mpr ⟨w, hwmem, by simp [hw]⟩, ?_⟩
      rw [hrid, ← beq_iff_eq.mp hw, hwid]
    · exact ⟨w, List.mem_map.mpr ⟨w, hwmem, by
        simp [Bool.eq_false_iff.mpr hw]⟩, hwid⟩
  · intro k hk hkid
    obtain ⟨x, hxmem, hximg⟩ := List.mem_map.mp hk
    by_cases hx : (x.id == a.id) = true
    · have hkr : k = r := by rw [← hximg]; simp [hx]
      rw [hkr]
      apply hract
      rw [← hrid, ← hkr]
      exact hkid
    · have hkx : k = x := by
        rw [← hximg]
        simp [Bool.eq_false_iff.mpr hx]
      rw [hkx]
      exact hall x hxmem (hkx ▸ hkid)

/-- Inversion of a successful `authenticateToken`: some active member
key was resolved and only its `last_used_at` was rewritten. -/
theorem authenticateToken_ok_inversion (tok : List Char) (db : List ApiKey)
    (touchOk : Bool) (now : Nat) (key' : ApiKey) (db' : List ApiKey)
    (h : authenticateToken tok db touchOk now = .ok (key', db')) :
    ∃ a, a ∈ db ∧ a.is_active = true ∧
      db' = db.map (fun k =>
        if k.id == a.id then { a with last_used_at := some now } else k) := by
  unfold authenticateToken at h
  dsimp only at h
  split at h
  · exact absurd h (by simp)
  · cases heq : get_key_by_hash db (sha256Hex tok) with
    | error e =>
        rw [heq] at h
        exact absurd h (by simp)
    | ok ro =>
        cases ro with
        | none =>
            rw [heq] at h
            exact absurd h (by simp)
        | some api_key =>
            rw [heq] at h
            dsimp only at h
            by_cases hact : api_key.is_active = true
            · rw [if_neg (by simp [hact])] at h
              cases touchOk with
              | false =>
                  rw [show update_last_used db api_key false now =
                    .error .storeError from rfl] at h
                  exact absurd h (by simp)
              | true =>
                  rw [show update_last_used db api_key true now =
                    .ok (db.map (fun k => if k.id == api_key.id then
                        { api_key with last_used_at := some now } else k),
                      { api_key with last_used_at := some now }) from rfl] at h
                  dsimp only at h
                  simp only [Except.ok.injEq, Prod.mk.injEq] at h
                  exact ⟨api_key, (get_key_by_hash_ok_some db _ api_key heq).1,
                    hact, h.2.symm⟩
            · have hb : api_key.is_active = false := Bool.eq_false_iff.mpr hact
              rw [if_pos (by simp [hb])] at h
              exact absurd h (by simp)

/-- Inversion of a successful `get_api_key_from_header`: same statement
as for `authenticateToken`, through the header parsing. -/
theorem get_api_key_ok_inversion (hdr : Option (List Char))
    (db : List ApiKey) (touchOk : Bool) (now : Nat) (key' : ApiKey)
    (db' : List ApiKey)
    (h : get_api_key_from_header hdr db touchOk now = .ok (key', db')) :
    ∃ a, a ∈ db ∧ a.is_active = true ∧
      db' = db.map (fun k =>
        if k.id == a.id then { a with last_used_at := some now } else k) := by
  unfold get_api_key_from_header at h
  split at h
  · exact absurd h (by simp)
  · dsimp only at h
    split at h
    · exact absurd h (by simp)
    · split at h
      · exact absurd h (by simp)
      · exact authenticateToken_ok_inversion _ db touchOk now key' db' h

/-- Inversion of a successful revocation: the row written back is the
selected row, deactivated, and the selected row matched id and owner. -/
theorem revoke_key_ok_true_inversion (db : List ApiKey) (key_id user_id : Nat)
    (db' : List ApiKey)
    (h : revoke_key db key_id user_id = .ok (true, db')) :
    ∃ a, a ∈ db ∧ a.id = key_id ∧ a.user_id = user_id ∧
      db' = db.map (fun k =>
        if k.id == a.id then { a with is_active := false } else k) := by
  unfold revoke_key at h
  split at h
  · exact absurd h (by simp)
  · exact absurd h (by simp)
  · rename_i api_key heq
    have hmem := scalar_one_or_none_mem _ api_key heq
    have hfilt := List.mem_filter.mp hmem
    have hprop : api_key.id = key_id ∧ api_key.user_id = user_id := by
      simpa using hfilt.2
    refine ⟨api_key, hfilt.1, hprop.1, hprop.2, ?_⟩
    simp only [Except.ok.injEq, Prod.mk.injEq] at h
    exact h.2.symm

/-- One operation preserves `keyRevoked`: creation cannot reuse the id
(primary-key constraint), revocation only deactivates, and the
authentication touch rewrites `last_used_at` of an active key only. -/
theorem applyKeyOp_preserves_keyRevoked (db : List ApiKey) (key_id : Nat)
    (op : KeyOp) (hrev : keyRevoked db key_id) :
    keyRevoked (applyKeyOp db op) key_id := by
  cases op with
  | createOp uid nm nid bs =>
      cases hc : create_api_key db uid nm nid bs with
      | error e =>
          have happ : applyKeyOp db (.createOp uid nm nid bs) = db := by
            simp [applyKeyOp, hc]
          rw [happ]
          exact hrev
      | ok r =>
          have happ : applyKeyOp db (.createOp uid nm nid bs) = r.1 := by
            simp [applyKeyOp, hc]
          rw [happ]
          obtain ⟨⟨w, hwmem, hwid⟩, hall⟩ := hrev
          unfold create_api_key at hc
          dsimp only at hc
          split at hc
          · exact absurd hc (by simp)
          · rename_i hnew
            have hr : r.1 = db ++ [ApiKey.mk nid uid (generate_api_key bs).2.1
                (pyOrStr nm ("Default Key".data)) (generate_api_key bs).2.2
                true none] := by
              simp only [Except.ok.injEq] at hc
              rw [← hc]
            have hnid : nid ≠ key_id := by
              intro hcontra
              have hnew' : (db.any fun k =>
                  k.id == nid || k.key_hash == (generate_api_key bs).2.1) =
                    false := Bool.eq_false_iff.mpr hnew
              rw [List.any_eq_false] at hnew'
              have hw := hnew' w hwmem
              exact hw (by
                have hwn : w.id = nid := by rw [hwid, hcontra]
                simp [hwn])
            constructor
            · refine ⟨w, ?_, hwid⟩
              rw [hr]
              exact List.mem_append_left _ hwmem
            · intro k hk hkid
              rw [hr] at hk
              rcases List.mem_append.mp hk with hk' | hk'
              · exact hall k hk' hkid
              · have hknid : k.id = nid := by
                  rw [List.mem_singleton.mp hk']
                exact absurd (hknid.symm.trans hkid) hnid
  | revokeOp kid uid =>
      cases hc : revoke_key db kid uid with
      | error e =>
          have happ : applyKeyOp db (.revokeOp kid uid) = db := by
            simp [applyKeyOp, hc]
          rw [happ]
          exact hrev
      | ok r =>
          obtain ⟨b, db'⟩ := r
          have happ : applyKeyOp db (.revokeOp kid uid) = db' := by
            simp [applyKeyOp, hc]
          rw [happ]
          cases b with
          | false =>
              have hdb : db' = db := by
                unfold revoke_key at hc
                split at hc
                · exact absurd hc (by simp)
                · simp only [Except.ok.injEq, Prod.mk.injEq] at hc
                  exact hc.2.symm
                · exact absurd hc (by simp)
              rw [hdb]
              exact hrev
          | true =>
              obtain ⟨a, hamem, haid, hauid, hdb'⟩ :=
                revoke_key_ok_true_inversion db kid uid db' hc
              rw [hdb']
              exact keyRevoked_map_if db key_id a _ rfl (fun _ => rfl) hrev
  | authOp hdr tOk now =>
      cases hc : get_api_key_from_header hdr db tOk now with
      | error e =>
          have happ : applyKeyOp db (.authOp hdr tOk now) = db := by
            simp [applyKeyOp, hc]
          rw [happ]
          exact hrev
      | ok r =>
          obtain ⟨key', db'⟩ := r
          have happ : applyKeyOp db (.authOp hdr tOk now) = db' := by
            simp [applyKeyOp, hc]
          rw [happ]
          obtain ⟨a, hamem, haact, hdb'⟩ :=
            get_api_key_ok_inversion hdr db tOk now key' db' hc
          rw [hdb']
          refine keyRevoked_map_if db key_id a _ rfl ?_ hrev
          intro hid
          exact absurd haact (by
            rw [hrev.2 a hamem hid]
            exact Bool.false_ne_true)

/-- C5: a key record with `is_active = false` always fails
authentication with the 401 revoked error; a revocation that returns
true leaves every row bearing the key's id inactive; and no modelled
operation on the key store (creation, revocation, authentication touch)
ever reverts an existing key's inactive status. -/
theorem c5_revocation_permanent :
    (∀ (tok : List Char) (db : List ApiKey) (touchOk : Bool) (now : Nat)
        (k : ApiKey),
      (∀ c ∈ tok, c.isWhitespace = false) → tok ≠ [] →
      List.isPrefixOf nbLive tok = true ∧ tok.length = 40 →
      get_key_by_hash db (sha256Hex tok) = .ok (some k) →
      k.is_active = false →
      get_api_key_from_header (some (("Bearer ".data) ++ tok)) db touchOk now =
        .error (.http 401 ("API key has been revoked".data))) ∧
    (∀ (db : List ApiKey) (key_id user_id : Nat) (db' : List ApiKey),
      revoke_key db key_id user_id = .ok (true, db') →
      keyRevoked db' key_id) ∧
    (∀ (db : List ApiKey) (key_id : Nat) (ops : List KeyOp),
      keyRevoked db key_id → keyRevoked (applyKeyOps db ops) key_id) := by
  refine ⟨?_, ?_, ?_⟩
  · intro tok db touchOk now k hws hne hfmt hfound hact
    rw [get_api_key_from_header_bearer tok hws hne db touchOk now]
    simp only [authenticateToken]
    rw [if_neg (by simp [hfmt.1, hfmt.2])]
    rw [hfound]
    simp [hact]
  · intro db key_id user_id db' h
    obtain ⟨a, hamem, haid, hauid, hdb'⟩ :=
      revoke_key_ok_true_inversion db key_id user_id db' h
    rw [hdb']
    constructor
    · exact ⟨{ a with is_active := false },
        List.mem_map.mpr ⟨a, hamem, by simp⟩, haid⟩
    · intro k hk hkid
      obtain ⟨x, hxmem, hximg⟩ := List.mem_map.mp hk
      by_cases hx : (x.id == a.id) = true
      · rw [← hximg]
        simp [hx]
      · have hkx : k = x := by
          rw [← hximg]
          simp [Bool.eq_false_iff.mpr hx]
        rw [hkx] at hkid
        have hxa : x.id = a.id := by rw [hkid, haid]
        exact absurd hxa (by simpa using hx)
  · intro db key_id ops hrev
    induction ops generalizing db with
    | nil => exact hrev
    | cons op rest ih =>
        exact ih (applyKeyOp db op)
          (applyKeyOp_preserves_keyRevoked db key_id op hrev)

/-- Witness for C5: a concrete revoked key rejects its own token, and
revocation survives a subsequent revoke operation. -/
theorem c5_witness :
    get_api_key_from_header
        (some (("Bearer ".data) ++ (nbLive ++ List.replicate 32 'f')))
        [ApiKey.mk 1 1 (sha256Hex (nbLive ++ List.replicate 32 'f'))
          [] nbLive false none] true 0 =
      .error (.http 401 ("API key has been revoked".data)) ∧
    keyRevoked (applyKeyOps
      [ApiKey.mk 1 1 (sha256Hex (nbLive ++ List.replicate 32 'f'))
        [] nbLive false none] [.revokeOp 1 1]) 1 :=
  ⟨c5_revocation_permanent.1 (nbLive ++ List.replicate 32 'f')
      [ApiKey.mk 1 1 (sha256Hex (nbLive ++ List.replicate 32 'f'))
        [] nbLive false none] true 0
      (ApiKey.mk 1 1 (sha256Hex (nbLive ++ List.replicate 32 'f'))
        [] nbLive false none)
      (by decide) (by decide) (by decide) (by decide) rfl,
   c5_revocation_permanent.2.2
      [ApiKey.mk 1 1 (sha256Hex (nbLive ++ List.replicate 32 'f'))
        [] nbLive false none] 1 [.revokeOp 1 1]
      (by
        unfold keyRevoked
        decide)⟩

/-- C1: the select-then-flush `increment_usage` loses an increment under
interleaving.  With a fresh `(key, day)` pair and two concurrent
delta-1 calls, the schedule running both SELECTs before both flushes
leaves one row with count 1 and raises `IntegrityError` (violating
`uq_usage_api_key_date`) in the second call; the sequential schedule of
the same two calls reaches the contracted single row with count 2. -/
theorem c1_increment_race_lost_update :
    runSched []
        [(IncTask.mk 1 0 1 101, IncPhase.start),
         (IncTask.mk 1 0 1 102, IncPhase.start)]
        [0, 1, 0, 1] =
      ([Usage.mk 101 1 0 1],
       [(IncTask.mk 1 0 1 101, IncPhase.done),
        (IncTask.mk 1 0 1 102, IncPhase.failed .integrityError)]) ∧
    runSched []
        [(IncTask.mk 1 0 1 101, IncPhase.start),
         (IncTask.mk 1 0 1 102, IncPhase.start)]
        [0, 0, 1, 1] =
      ([Usage.mk 101 1 0 2],
       [(IncTask.mk 1 0 1 101, IncPhase.done),
        (IncTask.mk 1 0 1 102, IncPhase.done)]) ∧
    countForDaySpec [Usage.mk 101 1 0 1] 1 0 = 1 :=
  ⟨by decide, by decide, by decide⟩

end NanoBanana
